import Mathlib

/-!
Verification of the shared paginated-fetch / batched-upsert engine of the
data-pipelines repository, a shallow embedding of `src/shared/sitg_arcgis.py`
and `src/shared/supabase_client.py`.

External HTTP traffic is modelled by responder functions: for one retry unit a
function from the attempt index to the response delivered on that attempt, and
for the whole run a function from the unit (page offset, or chunk index) and
the attempt index to the response.  Machine-level details that no claim touches
(JSON parse failures, the politeness sleeps between pages / batches, logging)
are noted in the doc comments of the definitions that elide them.
-/

namespace SitgArcgis

/-- Python `\s` on `str` (Unicode).  Modelled for code points at or below
0xFF, which covers every input considered in this development: the ASCII
whitespace class plus the separators 0x1c-0x1f, NEL 0x85 and NBSP 0xA0. -/
def pyIsSpace (c : Char) : Bool :=
  let n := c.toNat
  decide (n = 0x20 ∨ n = 0x09 ∨ n = 0x0a ∨ n = 0x0d ∨ n = 0x0b ∨ n = 0x0c
    ∨ n = 0x1c ∨ n = 0x1d ∨ n = 0x1e ∨ n = 0x1f ∨ n = 0x85 ∨ n = 0xa0)

/-- Python `\w` on `str` (Unicode aware: alphanumeric or underscore).
Modelled for code points at or below 0xFF, which covers every input
considered: ASCII letters, digits, underscore, and the Latin-1 letters
(0xAA, 0xB5, 0xBA, 0xC0-0xD6, 0xD8-0xF6, 0xF8-0xFF).  The degree sign 0xB0
is a symbol, not a word character. -/
def pyIsWordChar (c : Char) : Bool :=
  let n := c.toNat
  decide ((0x61 ≤ n ∧ n ≤ 0x7a) ∨ (0x41 ≤ n ∧ n ≤ 0x5a) ∨ (0x30 ≤ n ∧ n ≤ 0x39)
    ∨ n = 0x5f ∨ n = 0xaa ∨ n = 0xb5 ∨ n = 0xba
    ∨ (0xc0 ≤ n ∧ n ≤ 0xff ∧ n ≠ 0xd7 ∧ n ≠ 0xf7))

/-- Python `str.lower`, modelled for code points at or below 0xFF (ASCII
upper-case letters and the Latin-1 upper-case letters map down by 0x20;
everything else in range is unchanged). -/
def pyToLower (c : Char) : Char :=
  let n := c.toNat
  if (0x41 ≤ n ∧ n ≤ 0x5a) ∨ (0xc0 ≤ n ∧ n ≤ 0xd6) ∨ (0xd8 ≤ n ∧ n ≤ 0xde) then
    Char.ofNat (n + 0x20)
  else c

/-- One character step of `re.sub(r"[^\w\s]", "_", key)`: a character that is
neither a word character nor whitespace becomes an underscore. -/
def subNonWordSpace (c : Char) : Char :=
  if pyIsWordChar c || pyIsSpace c then c else '_'

/-- `re.sub(r"\s+", repl, s)` for a single replacement character: each maximal
run of whitespace becomes one copy of `repl`.  The boolean argument records
whether the previous character belonged to a whitespace run. -/
def collapseWsTo (repl : Char) : Bool → List Char → List Char
  | _, [] => []
  | inRun, c :: rest =>
    if pyIsSpace c then
      if inRun then collapseWsTo repl true rest
      else repl :: collapseWsTo repl true rest
    else c :: collapseWsTo repl false rest

/-- `key_to_snake_case` from `src/shared/sitg_arcgis.py`:
`re.sub` of non-word non-space characters to underscore, then `re.sub` of
whitespace runs to a single underscore, then `str.lower`. -/
def key_to_snake_case (key : String) : String :=
  String.mk (List.map pyToLower (collapseWsTo '_' false (List.map subNonWordSpace key.data)))

/-- Python `str.strip()`: drop whitespace from both ends. -/
def pyStrip (l : List Char) : List Char :=
  ((l.dropWhile pyIsSpace).reverse.dropWhile pyIsSpace).reverse

/-- `format_value` from `src/shared/sitg_arcgis.py` on an already-stringified
value (`none` models Python `None`; `str(val)` on a string is the identity):
collapse whitespace runs to a single space, strip, and turn the empty string
into `None`. -/
def format_value : Option String → Option String
  | none => none
  | some s =>
    let t := pyStrip (collapseWsTo ' ' false s.data)
    if t = [] then none else some (String.mk t)

/-- Python `range(start, stop, step)` for non-negative bounds (used as
`range(0, count, page_size)` and `range(0, len(records), batch_size)`).
The fuel argument of the auxiliary function only bounds the recursion; for a
positive step it never runs out before `start` reaches `stop`.  A zero step
raises `ValueError` in Python and is mapped to the empty range (never used by
the code under verification). -/
def pyRangeAux (step : Nat) : Nat → Nat → Nat → List Nat
  | 0, _, _ => []
  | fuel + 1, start, stop =>
    if start < stop then start :: pyRangeAux step fuel (start + step) stop else []

def pyRange (step start stop : Nat) : List Nat :=
  if step = 0 then [] else pyRangeAux step stop start stop

/-- One response of the remote HTTP source to a single request: an HTTP status
with a parsed JSON body, a timeout, or a connection-level error.  (A body that
fails to parse as JSON is not modelled; no claim depends on it.) -/
inductive HttpResp (α : Type) where
  | status (code : Nat) (body : α)
  | timeout
  | netError
deriving DecidableEq

/-- Result of `_get_json`: the returned body (`none` when the final exception
propagated), the number of HTTP requests issued, and the backoff delays slept
in seconds, in order. -/
structure GetResult (α : Type) where
  result : Option α
  requests : Nat
  sleeps : List Nat
deriving DecidableEq

/-- The body of the `try` block of `_get_json`: `requests.get` followed by
`raise_for_status` (which raises exactly for status codes of 400 and above)
and `r.json()`.  `none` means an exception was raised. -/
def tryRequest {α : Type} : HttpResp α → Option α
  | .status c body => if c < 400 then some body else none
  | .timeout => none
  | .netError => none

/-- `MAX_RETRIES = 5` from `src/shared/sitg_arcgis.py`. -/
def MAX_RETRIES : Nat := 5

/-- `RETRY_BACKOFF = 2` from `src/shared/sitg_arcgis.py`. -/
def RETRY_BACKOFF : Nat := 2

/-- The recursion of `_get_json`: on an exception with `retry >= MAX_RETRIES`
the exception propagates, otherwise the code sleeps
`RETRY_BACKOFF ** (retry + 1)` seconds and calls itself with `retry + 1`.
The fuel argument only bounds the recursion; started at `MAX_RETRIES + 1`
with `retry = 0` it never runs out before the `retry >= MAX_RETRIES` guard
fires, so the fuel-zero branch is unreachable. -/
def getJsonAux {α : Type} (resp : Nat → HttpResp α) : Nat → Nat → GetResult α
  | 0, _ => ⟨none, 0, []⟩
  | fuel + 1, retry =>
    match tryRequest (resp retry) with
    | some body => ⟨some body, 1, []⟩
    | none =>
      if MAX_RETRIES ≤ retry then ⟨none, 1, []⟩
      else
        let r := getJsonAux resp fuel (retry + 1)
        ⟨r.result, r.requests + 1, RETRY_BACKOFF ^ (retry + 1) :: r.sleeps⟩

/-- `_get_json` from `src/shared/sitg_arcgis.py`, over the responder giving
the response to each attempt (the URL is fixed within one retry unit, so it
is left implicit). -/
def get_json {α : Type} (resp : Nat → HttpResp α) : GetResult α :=
  getJsonAux resp (MAX_RETRIES + 1) 0

/-- A normalized output record: field name to value, `none` modelling JSON
null, in Python dict insertion order. -/
abbrev Record := List (String × Option String)

/-- One raw feature of a page response: `attributes` is `none` when the key is
absent (`feat.get("attributes")` gives `None`) and `some []` models an empty
attributes object; `geometry` is the serialized geometry blob, `none` when
absent or falsy. -/
structure Feature where
  attributes : Option Record
  geometry : Option String
deriving DecidableEq

/-- The `error` object of an ArcGIS response body (`err.get("code")`,
`err.get("message")`). -/
structure ArcgisError where
  code : Option Int
  message : Option String
deriving DecidableEq

/-- Parsed JSON body of a page query: the optional ArcGIS-level error object
and `data.get("features", [])`. -/
structure PageBody where
  error : Option ArcgisError
  features : List Feature
deriving DecidableEq

/-- Parsed JSON body of the count query: `data.get("count")`.  (The ArcGIS
count is a non-negative integer; it is modelled as `Nat`.) -/
structure CountBody where
  count : Option Nat
deriving DecidableEq

/-- How `fetch_all_features` can fail: `_get_json` exhausted its retries and
re-raised (count query or page query), the count query returned a body with
no `count` key (`RuntimeError`), or a page body carried an ArcGIS error
object (`RuntimeError` with the error's code and message). -/
inductive FetchErr where
  | httpFail
  | noCount
  | arcgisError (code : Option Int) (message : Option String)
deriving DecidableEq

/-- Python dict assignment `record[k] = v`: replace in place when the key is
present, append otherwise. -/
def dinsert (r : Record) (k : String) (v : Option String) : Record :=
  if r.any (fun kv => kv.1 = k) then
    r.map (fun kv => if kv.1 = k then (k, v) else kv)
  else r ++ [(k, v)]

/-- The per-feature body of the fetch loop: a feature whose attributes are
missing or empty is skipped (`if not attrs: continue`); otherwise each
attribute key goes through `key_to_snake_case` and each value through
`format_value`, and when `include_geometry` is set and the feature carries a
(truthy) geometry, the serialized geometry is stored under the `geometry`
key. -/
def featureToRecord (include_geometry : Bool) (f : Feature) : Option Record :=
  match f.attributes with
  | none => none
  | some attrs =>
    if attrs = [] then none
    else
      let record := attrs.foldl
        (fun r kv => dinsert r (key_to_snake_case kv.1) (format_value kv.2)) []
      match include_geometry, f.geometry with
      | true, some g => some (dinsert record "geometry" (some g))
      | _, _ => some record

/-- The records one page contributes, in the source's return order. -/
def recordsOfFeatures (include_geometry : Bool) (feats : List Feature) : List Record :=
  feats.filterMap (featureToRecord include_geometry)

/-- Outcome of the page loop: the records of all consumed pages concatenated
in page order (or the propagated error), and for each page unit actually
requested, its offset and the number of HTTP requests `_get_json` issued for
it, in order. -/
structure FetchLoopOut where
  result : Except FetchErr (List Record)
  pageUnits : List (Nat × Nat)

/-- The `for page_num, offset in enumerate(offsets, 1)` loop of
`fetch_all_features`: fetch the page at each offset through `_get_json`
(aborting when it re-raises), abort fatally on an ArcGIS error object, stop
early on an empty feature list, otherwise accumulate the page's records and
continue.  The politeness `time.sleep(0.1)` and the progress prints are
ignored. -/
def fetchPages (env : Nat → Nat → HttpResp PageBody) (include_geometry : Bool) :
    List Nat → FetchLoopOut
  | [] => ⟨.ok [], []⟩
  | off :: rest =>
    let g := get_json (env off)
    match g.result with
    | none => ⟨.error .httpFail, [(off, g.requests)]⟩
    | some body =>
      match body.error with
      | some e => ⟨.error (.arcgisError e.code e.message), [(off, g.requests)]⟩
      | none =>
        if body.features = [] then ⟨.ok [], [(off, g.requests)]⟩
        else
          let recs := recordsOfFeatures include_geometry body.features
          let r := fetchPages env include_geometry rest
          ⟨(match r.result with
            | .ok l => .ok (recs ++ l)
            | .error e => .error e),
           (off, g.requests) :: r.pageUnits⟩

/-- `get_record_count` from `src/shared/sitg_arcgis.py`: the count query via
`_get_json` and the `RuntimeError` when the body has no count.  Returns the
outcome together with the number of HTTP requests of the count unit. -/
def get_record_count (cEnv : Nat → HttpResp CountBody) : Except FetchErr Nat × Nat :=
  let g := get_json cEnv
  match g.result with
  | none => (.error .httpFail, g.requests)
  | some body =>
    match body.count with
    | none => (.error .noCount, g.requests)
    | some c => (.ok c, g.requests)

/-- Outcome of `fetch_all_features`: the fetched records (or the propagated
error), the number of HTTP requests of the count unit, and the per-page-unit
accounting of the page loop. -/
structure FetchOut where
  result : Except FetchErr (List Record)
  countRequests : Nat
  pageUnits : List (Nat × Nat)

/-- `fetch_all_features` from `src/shared/sitg_arcgis.py`, over responder
functions for the count query and for each page query (offset and attempt
index to response): query the count, return an empty list when it is zero,
otherwise walk `range(0, count, page_size)`. -/
def fetch_all_features (cEnv : Nat → HttpResp CountBody)
    (pEnv : Nat → Nat → HttpResp PageBody)
    (include_geometry : Bool) (page_size : Nat) : FetchOut :=
  match get_record_count cEnv with
  | (.error e, rq) => ⟨.error e, rq, []⟩
  | (.ok c, rq) =>
    if c = 0 then ⟨.ok [], rq, []⟩
    else
      let lp := fetchPages pEnv include_geometry (pyRange page_size 0 c)
      ⟨lp.result, rq, lp.pageUnits⟩

end SitgArcgis

namespace SupabaseClient

/-- `MAX_RETRIES = 3` from `src/shared/supabase_client.py`. -/
def MAX_RETRIES : Nat := 3

/-- `RETRY_BACKOFF_BASE = 2` from `src/shared/supabase_client.py`. -/
def RETRY_BACKOFF_BASE : Nat := 2

/-- One outcome of `requests.post` for a batch: an HTTP status code, a
`requests.exceptions.Timeout`, or another `requests.exceptions.RequestException`
(connection-level error).  The response body is never inspected beyond the
status code, so it is not modelled. -/
inductive UpResp where
  | status (code : Nat)
  | timeout
  | netError
deriving DecidableEq

/-- Result of `_upsert_single_batch`: the returned row count, the number of
HTTP requests issued, and the backoff delays slept in seconds, in order. -/
structure UpResult where
  count : Nat
  requests : Nat
  sleeps : List Nat
deriving DecidableEq

/-- The `for attempt in range(1, MAX_RETRIES + 1)` loop of
`_upsert_single_batch`, with `attempt` the current attempt index and the
second argument the number of loop iterations left: status 200 or 201
returns the record count; 429 and 500-or-above sleep
`RETRY_BACKOFF_BASE ** attempt` and continue; any other status returns 0
without retrying; `Timeout` and `RequestException` sleep the same backoff and
continue.  When the loop exhausts its iterations the function returns 0. -/
def upsertGo (resp : Nat → UpResp) (n : Nat) : Nat → Nat → UpResult
  | _, 0 => ⟨0, 0, []⟩
  | attempt, rem + 1 =>
    match resp attempt with
    | .status c =>
      if c = 200 ∨ c = 201 then ⟨n, 1, []⟩
      else if c = 429 then
        let r := upsertGo resp n (attempt + 1) rem
        ⟨r.count, r.requests + 1, RETRY_BACKOFF_BASE ^ attempt :: r.sleeps⟩
      else if 500 ≤ c then
        let r := upsertGo resp n (attempt + 1) rem
        ⟨r.count, r.requests + 1, RETRY_BACKOFF_BASE ^ attempt :: r.sleeps⟩
      else ⟨0, 1, []⟩
    | .timeout =>
      let r := upsertGo resp n (attempt + 1) rem
      ⟨r.count, r.requests + 1, RETRY_BACKOFF_BASE ^ attempt :: r.sleeps⟩
    | .netError =>
      let r := upsertGo resp n (attempt + 1) rem
      ⟨r.count, r.requests + 1, RETRY_BACKOFF_BASE ^ attempt :: r.sleeps⟩

/-- `_upsert_single_batch` from `src/shared/supabase_client.py`, over the
responder giving the destination's response to each attempt and the length
`n` of the submitted record list (the endpoint, headers and payload do not
influence control flow and are left implicit). -/
def upsert_single_batch (resp : Nat → UpResp) (n : Nat) : UpResult :=
  upsertGo resp n 1 MAX_RETRIES

/-- `records[i : i + batch_size]` for each `i in range(0, len(records),
batch_size)`: the contiguous chunks submitted by `batch_upsert`. -/
def chunksOf {α : Type} (batch_size : Nat) (records : List α) : List (List α) :=
  (SitgArcgis.pyRange batch_size 0 records.length).map
    (fun i => (records.drop i).take batch_size)

/-- Result of `batch_upsert`: the returned total, the per-chunk acknowledged
counts in submission order, and the total number of destination requests. -/
structure BatchResult where
  total : Nat
  chunkCounts : List Nat
  requests : Nat
deriving DecidableEq

/-- The chunk loop of `batch_upsert`: each chunk is submitted through
`_upsert_single_batch` with its own responder (indexed by chunk position) and
the counts are accumulated.  The politeness `time.sleep(0.3)` and the
per-batch prints are ignored. -/
def runChunks {α : Type} (resp : Nat → Nat → UpResp) : Nat → List (List α) → BatchResult
  | _, [] => ⟨0, [], 0⟩
  | i, c :: rest =>
    let u := upsert_single_batch (resp i) c.length
    let r := runChunks resp (i + 1) rest
    ⟨u.count + r.total, u.count :: r.chunkCounts, u.requests + r.requests⟩

/-- `batch_upsert` from `src/shared/supabase_client.py`: an empty `url` or
`key` (Python falsy strings) or an empty record list short-circuits to 0
without any destination request; otherwise the records are processed in
chunks of at most `batch_size`. -/
def batch_upsert {α : Type} (resp : Nat → Nat → UpResp) (url key : String)
    (records : List α) (batch_size : Nat) : BatchResult :=
  if url = "" ∨ key = "" then ⟨0, [], 0⟩
  else if records.isEmpty then ⟨0, [], 0⟩
  else runChunks resp 0 (chunksOf batch_size records)

/-- Modelled from the spec: the upsert destination itself is an external
Postgres-backed REST service, not code under `src/`.  Per the spec's
merge-on-conflict contract, one incoming record, identified by the value of
its conflict column, inserts a new row when no row carries that conflict-key
value and otherwise overwrites that row, never creating a duplicate.  The
destination state is the map from conflict-key value to the stored row. -/
def applyRecord {α : Type} (s : String → Option α) (kv : String × α) :
    String → Option α :=
  fun k => if kv.1 = k then some kv.2 else s k

/-- Modelled from the spec: the destination state after one upsert call, the
records applied in submission order (a later record with the same conflict
key overwrites an earlier one). -/
def applyUpsertRecords {α : Type} (s : String → Option α)
    (l : List (String × α)) : String → Option α :=
  l.foldl applyRecord s

/-- The last value a record list binds to a conflict key, if any. -/
def lookupLast {α : Type} : List (String × α) → String → Option α
  | [], _ => none
  | kv :: t, k =>
    match lookupLast t k with
    | some v => some v
    | none => if kv.1 = k then some kv.2 else none

end SupabaseClient

/-- A count responder reporting 4500 records on every attempt. -/
def envCount4500 : Nat → SitgArcgis.HttpResp SitgArcgis.CountBody :=
  fun _ => .status 200 ⟨some 4500⟩

/-- A concrete feature with one attribute and a geometry blob. -/
def featA : SitgArcgis.Feature := ⟨some [("A b", some "x")], some "geo"⟩

/-- A concrete feature carrying geometry but no attributes object. -/
def featNoAttrs : SitgArcgis.Feature := ⟨none, some "geo"⟩

/-- A page responder delivering one non-empty page at every offset. -/
def envPagesFull : Nat → Nat → SitgArcgis.HttpResp SitgArcgis.PageBody :=
  fun _ _ => .status 200 ⟨none, [featA]⟩

/-- A page responder whose page at offset 0 is non-empty and whose later pages
have an empty feature list. -/
def envPagesEmptyAt2000 : Nat → Nat → SitgArcgis.HttpResp SitgArcgis.PageBody :=
  fun off _ =>
    if off = 0 then .status 200 ⟨none, [featA]⟩ else .status 200 ⟨none, []⟩

/-- A page responder whose page at offset 0 is non-empty and whose later pages
carry an ArcGIS error object in a 200 response. -/
def envPagesErrAt2000 : Nat → Nat → SitgArcgis.HttpResp SitgArcgis.PageBody :=
  fun off _ =>
    if off = 0 then .status 200 ⟨none, [featA]⟩
    else .status 200 ⟨some ⟨some 400, some "Invalid query"⟩, []⟩

/-- A destination responder that accepts the first chunk and rejects every
later chunk with HTTP 400. -/
def wRespMixed : Nat → Nat → SupabaseClient.UpResp :=
  fun i _ => if i = 0 then .status 200 else .status 400

open SitgArcgis SupabaseClient in
/-- Unfolding of one step of the `_get_json` recursion. -/
theorem getJsonAux_succ {α : Type} (resp : Nat → HttpResp α) (fuel retry : Nat) :
    getJsonAux resp (fuel + 1) retry =
      match tryRequest (resp retry) with
      | some body => ⟨some body, 1, []⟩
      | none =>
        if SitgArcgis.MAX_RETRIES ≤ retry then ⟨none, 1, []⟩
        else
          let r := getJsonAux resp fuel (retry + 1)
          ⟨r.result, r.requests + 1, SitgArcgis.RETRY_BACKOFF ^ (retry + 1) :: r.sleeps⟩ := rfl

open SitgArcgis in
/-- When the first attempt of a retry unit succeeds with a non-error status,
`_get_json` returns its body after exactly one request and no sleep. -/
theorem get_json_first_ok {α : Type} (resp : Nat → HttpResp α) (c : Nat) (b : α)
    (hc : resp 0 = .status c b) (h : c < 400) :
    get_json resp = ⟨some b, 1, []⟩ := by
  show getJsonAux resp (5 + 1) 0 = _
  rw [getJsonAux_succ, hc]
  simp [tryRequest, h]

open SitgArcgis in
/-- When every attempt of a retry unit raises, `_get_json` issues exactly
6 requests, sleeping 2, 4, 8, 16 and 32 seconds between them, and then
re-raises. -/
theorem get_json_const_fail {α : Type} (r : HttpResp α) (hr : tryRequest r = none) :
    get_json (fun _ => r) = ⟨none, 6, [2, 4, 8, 16, 32]⟩ := by
  have step : ∀ fuel retry : Nat, getJsonAux (fun _ => r) (fuel + 1) retry =
      if SitgArcgis.MAX_RETRIES ≤ retry then ⟨none, 1, []⟩
      else
        ⟨(getJsonAux (fun _ => r) fuel (retry + 1)).result,
         (getJsonAux (fun _ => r) fuel (retry + 1)).requests + 1,
         SitgArcgis.RETRY_BACKOFF ^ (retry + 1) :: (getJsonAux (fun _ => r) fuel (retry + 1)).sleeps⟩ := by
    intro fuel retry
    rw [getJsonAux_succ]
    simp only [hr]
  have h5 : getJsonAux (fun _ => r) 1 5 = ⟨none, 1, []⟩ := by
    show getJsonAux (fun _ => r) (0 + 1) 5 = _
    rw [step 0 5]
    norm_num [SitgArcgis.MAX_RETRIES]
  have h4 : getJsonAux (fun _ => r) 2 4 = ⟨none, 2, [32]⟩ := by
    show getJsonAux (fun _ => r) (1 + 1) 4 = _
    rw [step 1 4, h5]
    norm_num [SitgArcgis.MAX_RETRIES, SitgArcgis.RETRY_BACKOFF]
  have h3 : getJsonAux (fun _ => r) 3 3 = ⟨none, 3, [16, 32]⟩ := by
    show getJsonAux (fun _ => r) (2 + 1) 3 = _
    rw [step 2 3, h4]
    norm_num [SitgArcgis.MAX_RETRIES, SitgArcgis.RETRY_BACKOFF]
  have h2 : getJsonAux (fun _ => r) 4 2 = ⟨none, 4, [8, 16, 32]⟩ := by
    show getJsonAux (fun _ => r) (3 + 1) 2 = _
    rw [step 3 2, h3]
    norm_num [SitgArcgis.MAX_RETRIES, SitgArcgis.RETRY_BACKOFF]
  have h1 : getJsonAux (fun _ => r) 5 1 = ⟨none, 5, [4, 8, 16, 32]⟩ := by
    show getJsonAux (fun _ => r) (4 + 1) 1 = _
    rw [step 4 1, h2]
    norm_num [SitgArcgis.MAX_RETRIES, SitgArcgis.RETRY_BACKOFF]
  show getJsonAux (fun _ => r) (5 + 1) 0 = _
  rw [step 5 0, h1]
  norm_num [SitgArcgis.MAX_RETRIES, SitgArcgis.RETRY_BACKOFF]

open SupabaseClient in
/-- Unfolding of one iteration of the `_upsert_single_batch` loop. -/
theorem upsertGo_succ (resp : Nat → UpResp) (n attempt rem : Nat) :
    upsertGo resp n attempt (rem + 1) =
      match resp attempt with
      | .status c =>
        if c = 200 ∨ c = 201 then ⟨n, 1, []⟩
        else if c = 429 then
          let r := upsertGo resp n (attempt + 1) rem
          ⟨r.count, r.requests + 1, RETRY_BACKOFF_BASE ^ attempt :: r.sleeps⟩
        else if 500 ≤ c then
          let r := upsertGo resp n (attempt + 1) rem
          ⟨r.count, r.requests + 1, RETRY_BACKOFF_BASE ^ attempt :: r.sleeps⟩
        else ⟨0, 1, []⟩
      | .timeout =>
        let r := upsertGo resp n (attempt + 1) rem
        ⟨r.count, r.requests + 1, RETRY_BACKOFF_BASE ^ attempt :: r.sleeps⟩
      | .netError =>
        let r := upsertGo resp n (attempt + 1) rem
        ⟨r.count, r.requests + 1, RETRY_BACKOFF_BASE ^ attempt :: r.sleeps⟩ := rfl

open SupabaseClient in
/-- The count of one batch is all-or-nothing: the submitted length or zero. -/
theorem upsertGo_count (resp : Nat → UpResp) (n : Nat) :
    ∀ (rem attempt : Nat),
      (upsertGo resp n attempt rem).count = n ∨ (upsertGo resp n attempt rem).count = 0 := by
  intro rem
  induction rem with
  | zero => intro a; exact Or.inr rfl
  | succ m ih =>
    intro a
    rw [upsertGo_succ]
    cases h : resp a with
    | status c =>
      by_cases h1 : c = 200 ∨ c = 201
      · simp [h1]
      · by_cases h2 : c = 429
        · simpa [h1, h2] using ih (a + 1)
        · by_cases h3 : 500 ≤ c
          · simpa [h1, h2, h3] using ih (a + 1)
          · simp [h1, h2, h3]
    | timeout => simpa using ih (a + 1)
    | netError => simpa using ih (a + 1)

open SupabaseClient in
theorem upsert_single_batch_count (resp : Nat → UpResp) (n : Nat) :
    (upsert_single_batch resp n).count = n ∨ (upsert_single_batch resp n).count = 0 :=
  upsertGo_count resp n SupabaseClient.MAX_RETRIES 1

open SupabaseClient in
theorem upsert_single_batch_count_le (resp : Nat → UpResp) (n : Nat) :
    (upsert_single_batch resp n).count ≤ n := by
  rcases upsert_single_batch_count resp n with h | h <;> omega

open SitgArcgis in
/-- Joining the slices at the offsets produced by `range(start, stop, step)`
recovers the dropped suffix, for a positive step and enough fuel. -/
theorem pyRangeAux_slices_join {α : Type} (l : List α) (bs : Nat) (hbs : 1 ≤ bs) :
    ∀ (fuel start : Nat), l.length ≤ start + fuel →
      ((pyRangeAux bs fuel start l.length).map (fun i => (l.drop i).take bs)).flatten
        = l.drop start := by
  intro fuel
  induction fuel with
  | zero =>
    intro start h
    simp only [pyRangeAux, List.map_nil, List.flatten_nil]
    exact (List.drop_eq_nil_of_le (by omega)).symm
  | succ fl ih =>
    intro start h
    by_cases hs : start < l.length
    · simp only [pyRangeAux, if_pos hs, List.map_cons, List.flatten_cons]
      rw [ih (start + bs) (by omega)]
      have hdd : l.drop (start + bs) = (l.drop start).drop bs := by
        rw [List.drop_drop, Nat.add_comm]
      rw [hdd, List.take_append_drop]
    · have hle : l.length ≤ start := by omega
      simp only [pyRangeAux, if_neg hs, List.map_nil, List.flatten_nil]
      exact (List.drop_eq_nil_of_le hle).symm

open SupabaseClient in
/-- The chunks of `batch_upsert` are a partition: concatenated in order they
give back the record list. -/
theorem chunksOf_join {α : Type} (bs : Nat) (hbs : 1 ≤ bs) (l : List α) :
    (chunksOf bs l).flatten = l := by
  unfold SupabaseClient.chunksOf SitgArcgis.pyRange
  rw [if_neg (by omega)]
  simpa using pyRangeAux_slices_join l bs hbs l.length 0 (by omega)

open SupabaseClient in
/-- Every chunk of `batch_upsert` holds at most `batch_size` records. -/
theorem chunksOf_length_le {α : Type} (bs : Nat) (l : List α) :
    ∀ c ∈ chunksOf bs l, c.length ≤ bs := by
  intro c hc
  unfold SupabaseClient.chunksOf at hc
  rcases List.mem_map.mp hc with ⟨i, _, rfl⟩
  simp [List.length_take]

open SupabaseClient in
theorem runChunks_total_eq_sum {α : Type} (resp : Nat → Nat → UpResp) :
    ∀ (cs : List (List α)) (i : Nat),
      (runChunks resp i cs).total = (runChunks resp i cs).chunkCounts.sum := by
  intro cs
  induction cs with
  | nil => intro i; rfl
  | cons c t ih =>
    intro i
    simp [runChunks, ih (i + 1)]

open SupabaseClient in
theorem runChunks_counts_spec {α : Type} (resp : Nat → Nat → UpResp) :
    ∀ (cs : List (List α)) (i : Nat),
      List.Forall₂ (fun k (c : List α) => k = c.length ∨ k = 0)
        (runChunks resp i cs).chunkCounts cs := by
  intro cs
  induction cs with
  | nil => intro i; exact List.Forall₂.nil
  | cons c t ih =>
    intro i
    simp only [runChunks, List.forall₂_cons]
    exact ⟨upsert_single_batch_count _ _, ih (i + 1)⟩

open SupabaseClient in
theorem runChunks_total_le {α : Type} (resp : Nat → Nat → UpResp) :
    ∀ (cs : List (List α)) (i : Nat),
      (runChunks resp i cs).total ≤ (cs.map List.length).sum := by
  intro cs
  induction cs with
  | nil => intro i; exact Nat.le_refl 0
  | cons c t ih =>
    intro i
    simp only [runChunks, List.map_cons, List.sum_cons]
    exact Nat.add_le_add (upsert_single_batch_count_le _ _) (ih (i + 1))

open SupabaseClient in
/-- The destination state after an upsert call, read at one conflict key: the
last submitted record with that key wins, else the previous state answers. -/
theorem applyUpsertRecords_eval {α : Type} (l : List (String × α)) :
    ∀ (s : String → Option α) (k : String),
      applyUpsertRecords s l k =
        match lookupLast l k with
        | some v => some v
        | none => s k := by
  induction l with
  | nil => intro s k; rfl
  | cons kv t ih =>
    intro s k
    show applyUpsertRecords (applyRecord s kv) t k = _
    rw [ih]
    cases h : lookupLast t k with
    | some v => simp [lookupLast, h]
    | none =>
      simp only [lookupLast, h, applyRecord]
      by_cases hk : kv.1 = k
      · simp [hk]
      · simp [hk]

open SupabaseClient in
theorem applyUpsertRecords_idem {α : Type} (s : String → Option α)
    (l : List (String × α)) :
    applyUpsertRecords (applyUpsertRecords s l) l = applyUpsertRecords s l := by
  funext k
  rw [applyUpsertRecords_eval l (applyUpsertRecords s l) k]
  cases h : lookupLast l k with
  | some v => rw [applyUpsertRecords_eval l s k, h]
  | none => rfl

/-- A list with a member that maps to `none` loses at least one element under
`filterMap`. -/
theorem length_filterMap_lt {α β : Type} (F : α → Option β) (a : α) :
    ∀ l : List α, a ∈ l → F a = none → (l.filterMap F).length < l.length := by
  intro l
  induction l with
  | nil => intro h _; exact absurd h (List.not_mem_nil a)
  | cons x t ih =>
    intro hm hF
    rcases List.mem_cons.mp hm with rfl | ht
    · simp only [List.filterMap_cons, hF, List.length_cons]
      exact Nat.lt_succ_of_le (List.length_filterMap_le F t)
    · cases hx : F x with
      | none =>
        simp only [List.filterMap_cons, hx, List.length_cons]
        exact Nat.lt_succ_of_lt (ih ht hF)
      | some b =>
        simp only [List.filterMap_cons, hx, List.length_cons]
        exact Nat.succ_lt_succ (ih ht hF)

/-- C1: counterexample.  The claim says an HTTP 4xx response other than 429
is never retried for page fetches.  In `_get_json` every exception, the
`HTTPError` of a 400 response included, is retried: with every response of a
fetch being HTTP 400, the single planned page unit issues 6 HTTP requests
(5 retries) with backoff sleeps 2, 4, 8, 16, 32 before the fetch raises. -/
theorem C1_counterexample :
    (SitgArcgis.fetch_all_features (fun _ => .status 200 ⟨some 1⟩)
        (fun _ _ => .status 400 ⟨none, []⟩) true 2000).pageUnits = [(0, 6)]
    ∧ (SitgArcgis.fetch_all_features (fun _ => .status 200 ⟨some 1⟩)
        (fun _ _ => .status 400 ⟨none, []⟩) true 2000).result = .error .httpFail
    ∧ (SitgArcgis.get_json (fun _ => SitgArcgis.HttpResp.status 400
        (⟨none, []⟩ : SitgArcgis.PageBody))).sleeps = [2, 4, 8, 16, 32] :=
  ⟨rfl, rfl, rfl⟩

/-- C1 amended: for upsert batches, an HTTP 4xx other than 429 is indeed never
retried — `_upsert_single_batch` returns zero rows after exactly one request
with no backoff sleep.  For page fetches, however, a 4xx response is treated
like any transient failure: `_get_json` retries it with backoff (6 requests
in total, sleeping 2, 4, 8, 16, 32 seconds) and then the fetch raises. -/
theorem C1_amended (resp : Nat → SupabaseClient.UpResp) (n c : Nat)
    (pb : SitgArcgis.PageBody)
    (h4 : 400 ≤ c) (h5 : c < 500) (h429 : c ≠ 429)
    (hr : resp 1 = SupabaseClient.UpResp.status c) :
    SupabaseClient.upsert_single_batch resp n = ⟨0, 1, []⟩
    ∧ SitgArcgis.get_json (fun _ => SitgArcgis.HttpResp.status c pb)
        = ⟨none, 6, [2, 4, 8, 16, 32]⟩ := by
  constructor
  · show SupabaseClient.upsertGo resp n 1 (2 + 1) = _
    rw [upsertGo_succ, hr]
    have h1 : ¬ (c = 200 ∨ c = 201) := by omega
    have h3 : ¬ 500 ≤ c := by omega
    simp [h1, h429, h3]
  · refine get_json_const_fail _ ?_
    have hnc : ¬ c < 400 := by omega
    simp [SitgArcgis.tryRequest, hnc]

/-- C1 witness: the amended statement at HTTP 404. -/
theorem C1_witness :
    SupabaseClient.upsert_single_batch (fun _ => SupabaseClient.UpResp.status 404) 2
      = ⟨0, 1, []⟩
    ∧ SitgArcgis.get_json (fun _ => SitgArcgis.HttpResp.status 404
        (⟨none, []⟩ : SitgArcgis.PageBody)) = ⟨none, 6, [2, 4, 8, 16, 32]⟩ :=
  C1_amended (fun _ => SupabaseClient.UpResp.status 404) 2 404 ⟨none, []⟩
    (by decide) (by decide) (by decide) rfl

/-- C2: counterexample.  `key_to_snake_case` does not map `N° Bâtiment` to
`n_b_timent`: Python's `\w` is Unicode-aware, so the letter `â` is a word
character and survives, while the degree sign and the following space each
contribute their own underscore. -/
theorem C2_counterexample :
    ¬ SitgArcgis.key_to_snake_case "N° Bâtiment" = "n_b_timent" := by decide

/-- C2 amended: key normalization maps every character that is neither a word
character nor whitespace to an underscore, collapses whitespace runs to a
single underscore and lower-cases, where word characters are Unicode-aware;
on the input field `N° Bâtiment` this yields `n__bâtiment`. -/
theorem C2_amended :
    SitgArcgis.key_to_snake_case "N° Bâtiment" = "n__bâtiment" := by decide

/-- C3: counterexample.  The claim says a unit failing with HTTP 500 on every
attempt is retried exactly `max_attempts` times, 3 for upsert batches, which
would mean 1 + 3 = 4 requests for a batch.  The upsert loop runs 3 attempts
in total (2 retries), so it issues 3 requests and not 4. -/
theorem C3_counterexample :
    (SupabaseClient.upsert_single_batch
        (fun _ => SupabaseClient.UpResp.status 500) 7).requests = 3
    ∧ ¬ (SupabaseClient.upsert_single_batch
        (fun _ => SupabaseClient.UpResp.status 500) 7).requests = 3 + 1 :=
  ⟨rfl, by decide⟩

/-- C3 amended: on persistent HTTP 500, a page fetch is attempted 6 times in
total (the initial request plus `MAX_RETRIES = 5` retries) with strictly
increasing delays 2, 4, 8, 16, 32 seconds (2 to the power of the attempt
counter, starting at 1) and then raises; an upsert batch is attempted
`MAX_RETRIES = 3` times in total (2 retries), sleeping 2, 4, 8 seconds (the
loop also sleeps after its last failed attempt) and is then reported as
failed with zero rows. -/
theorem C3_amended (n : Nat) (pb : SitgArcgis.PageBody) :
    SitgArcgis.get_json (fun _ => SitgArcgis.HttpResp.status 500 pb)
      = ⟨none, 6, [2, 4, 8, 16, 32]⟩
    ∧ SupabaseClient.upsert_single_batch
        (fun _ => SupabaseClient.UpResp.status 500) n = ⟨0, 3, [2, 4, 8]⟩ :=
  ⟨rfl, rfl⟩

/-- C4: counterexample.  A 204 No Content response is a 2xx success, yet
`_upsert_single_batch` counts the batch as zero rows, not as the submitted
length 5. -/
theorem C4_counterexample :
    (SupabaseClient.upsert_single_batch
        (fun _ => SupabaseClient.UpResp.status 204) 5).count = 0
    ∧ ¬ (SupabaseClient.upsert_single_batch
        (fun _ => SupabaseClient.UpResp.status 204) 5).count = 5 := by decide

/-- C4 amended: a batch is counted as fully upserted (length of the submitted
record list, one request, no sleep) exactly for status 200 or 201; any other
2xx status (e.g. 204) falls into the final else branch of the loop and is
counted as zero rows without a retry. -/
theorem C4_amended (resp : Nat → SupabaseClient.UpResp) (n c : Nat)
    (hr : resp 1 = SupabaseClient.UpResp.status c) (hlo : 200 ≤ c) (hhi : c < 300) :
    (c = 200 ∨ c = 201 → SupabaseClient.upsert_single_batch resp n = ⟨n, 1, []⟩)
    ∧ (¬ (c = 200 ∨ c = 201) →
        SupabaseClient.upsert_single_batch resp n = ⟨0, 1, []⟩) := by
  constructor
  · intro h
    show SupabaseClient.upsertGo resp n 1 (2 + 1) = _
    rw [upsertGo_succ, hr]
    simp [h]
  · intro h
    show SupabaseClient.upsertGo resp n 1 (2 + 1) = _
    rw [upsertGo_succ, hr]
    have h2 : c ≠ 429 := by omega
    have h3 : ¬ 500 ≤ c := by omega
    simp [h, h2, h3]

/-- C4 witness: the amended statement at status 200 and at status 204. -/
theorem C4_witness :
    SupabaseClient.upsert_single_batch
        (fun _ => SupabaseClient.UpResp.status 200) 5 = ⟨5, 1, []⟩
    ∧ SupabaseClient.upsert_single_batch
        (fun _ => SupabaseClient.UpResp.status 204) 5 = ⟨0, 1, []⟩ :=
  ⟨(C4_amended (fun _ => SupabaseClient.UpResp.status 200) 5 200 rfl
      (by decide) (by decide)).1 (Or.inl rfl),
   (C4_amended (fun _ => SupabaseClient.UpResp.status 204) 5 204 rfl
      (by decide) (by decide)).2 (by decide)⟩

/-- C5: for a source reporting count 4500 and page size 2000,
`fetch_all_features` issues exactly 3 page requests at offsets 0, 2000, 4000
in that order (one HTTP request each) and concatenates the pages' records in
page order; and when the page at offset 2000 returns an empty feature list,
pagination stops immediately and only the records gathered so far are
returned. -/
theorem C5_pagination (cEnv : Nat → SitgArcgis.HttpResp SitgArcgis.CountBody)
    (pEnv qEnv : Nat → Nat → SitgArcgis.HttpResp SitgArcgis.PageBody)
    (geom : Bool) (F0 F1 F2 : List SitgArcgis.Feature)
    (hc : cEnv 0 = .status 200 ⟨some 4500⟩)
    (h0 : pEnv 0 0 = .status 200 ⟨none, F0⟩)
    (h1 : pEnv 2000 0 = .status 200 ⟨none, F1⟩)
    (h2 : pEnv 4000 0 = .status 200 ⟨none, F2⟩)
    (n0 : F0 ≠ []) (n1 : F1 ≠ []) (n2 : F2 ≠ [])
    (g0 : qEnv 0 0 = .status 200 ⟨none, F0⟩)
    (g1 : qEnv 2000 0 = .status 200 ⟨none, []⟩) :
    SitgArcgis.fetch_all_features cEnv pEnv geom 2000
      = ⟨.ok (SitgArcgis.recordsOfFeatures geom F0
              ++ SitgArcgis.recordsOfFeatures geom F1
              ++ SitgArcgis.recordsOfFeatures geom F2),
         1, [(0, 1), (2000, 1), (4000, 1)]⟩
    ∧ SitgArcgis.fetch_all_features cEnv qEnv geom 2000
      = ⟨.ok (SitgArcgis.recordsOfFeatures geom F0), 1, [(0, 1), (2000, 1)]⟩ := by
  have ec : SitgArcgis.get_json cEnv = ⟨some ⟨some 4500⟩, 1, []⟩ :=
    get_json_first_ok cEnv 200 _ hc (by omega)
  have e0 : SitgArcgis.get_json (pEnv 0) = ⟨some ⟨none, F0⟩, 1, []⟩ :=
    get_json_first_ok _ 200 _ h0 (by omega)
  have e1 : SitgArcgis.get_json (pEnv 2000) = ⟨some ⟨none, F1⟩, 1, []⟩ :=
    get_json_first_ok _ 200 _ h1 (by omega)
  have e2 : SitgArcgis.get_json (pEnv 4000) = ⟨some ⟨none, F2⟩, 1, []⟩ :=
    get_json_first_ok _ 200 _ h2 (by omega)
  have f0 : SitgArcgis.get_json (qEnv 0) = ⟨some ⟨none, F0⟩, 1, []⟩ :=
    get_json_first_ok _ 200 _ g0 (by omega)
  have f1 : SitgArcgis.get_json (qEnv 2000) = ⟨some ⟨none, ([] : List SitgArcgis.Feature)⟩, 1, []⟩ :=
    get_json_first_ok _ 200 _ g1 (by omega)
  have hrange : SitgArcgis.pyRange 2000 0 4500 = [0, 2000, 4000] := rfl
  constructor
  · simp [SitgArcgis.fetch_all_features, SitgArcgis.get_record_count, ec, hrange,
      SitgArcgis.fetchPages, e0, e1, e2, n0, n1, n2]
  · simp [SitgArcgis.fetch_all_features, SitgArcgis.get_record_count, ec, hrange,
      SitgArcgis.fetchPages, f0, f1, n0]

/-- C5 witness: the pagination statement at concrete responders. -/
theorem C5_witness :
    SitgArcgis.fetch_all_features envCount4500 envPagesFull true 2000
      = ⟨.ok (SitgArcgis.recordsOfFeatures true [featA]
              ++ SitgArcgis.recordsOfFeatures true [featA]
              ++ SitgArcgis.recordsOfFeatures true [featA]),
         1, [(0, 1), (2000, 1), (4000, 1)]⟩
    ∧ SitgArcgis.fetch_all_features envCount4500 envPagesEmptyAt2000 true 2000
      = ⟨.ok (SitgArcgis.recordsOfFeatures true [featA]), 1, [(0, 1), (2000, 1)]⟩ :=
  C5_pagination envCount4500 envPagesFull envPagesEmptyAt2000 true
    [featA] [featA] [featA] rfl rfl rfl rfl
    (by decide) (by decide) (by decide) rfl rfl

/-- C6: `batch_upsert` splits the records into contiguous chunks of at most
`batch_size` whose concatenation is the input list, processes every chunk in
submission order even when earlier chunks fail (the per-chunk count list has
one entry per chunk, in order), each chunk's acknowledged count is either the
chunk length or zero (a failed chunk degrades to zero instead of raising),
and the returned total is the sum of the per-chunk counts. -/
theorem C6_chunking {α : Type} (resp : Nat → Nat → SupabaseClient.UpResp)
    (url key : String) (records : List α) (bs : Nat)
    (hu : url ≠ "") (hk : key ≠ "") (hbs : 1 ≤ bs) :
    (SupabaseClient.chunksOf bs records).flatten = records
    ∧ (∀ c ∈ SupabaseClient.chunksOf bs records, c.length ≤ bs)
    ∧ (SupabaseClient.batch_upsert resp url key records bs).total
        = (SupabaseClient.batch_upsert resp url key records bs).chunkCounts.sum
    ∧ List.Forall₂ (fun k2 (c : List α) => k2 = c.length ∨ k2 = 0)
        (SupabaseClient.batch_upsert resp url key records bs).chunkCounts
        (SupabaseClient.chunksOf bs records) := by
  have hcond : ¬ (url = "" ∨ key = "") := by
    intro h
    rcases h with h | h
    · exact hu h
    · exact hk h
  by_cases hrec : records.isEmpty
  · have hnil : records = [] := List.isEmpty_iff.mp hrec
    subst hnil
    refine ⟨chunksOf_join bs hbs [], chunksOf_length_le bs [], ?_, ?_⟩
    · simp [SupabaseClient.batch_upsert, hcond]
    · have hch : SupabaseClient.chunksOf bs ([] : List α) = [] := by
        unfold SupabaseClient.chunksOf SitgArcgis.pyRange
        by_cases h : bs = 0 <;> simp [h, SitgArcgis.pyRangeAux]
      simp only [SupabaseClient.batch_upsert, if_neg hcond, hch]
      simp
  · have hbu : SupabaseClient.batch_upsert resp url key records bs
        = SupabaseClient.runChunks resp 0 (SupabaseClient.chunksOf bs records) := by
      simp [SupabaseClient.batch_upsert, hcond, hrec]
    refine ⟨chunksOf_join bs hbs records, chunksOf_length_le bs records, ?_, ?_⟩
    · rw [hbu]
      exact runChunks_total_eq_sum resp _ 0
    · rw [hbu]
      exact runChunks_counts_spec resp _ 0

/-- C6 witness: the chunking statement at a destination that accepts the
first chunk and rejects the second. -/
theorem C6_witness :
    (SupabaseClient.chunksOf 2 [10, 20, 30]).flatten = [10, 20, 30]
    ∧ (∀ c ∈ SupabaseClient.chunksOf 2 [10, 20, 30], c.length ≤ 2)
    ∧ (SupabaseClient.batch_upsert wRespMixed "u" "k" [10, 20, 30] 2).total
        = (SupabaseClient.batch_upsert wRespMixed "u" "k" [10, 20, 30] 2).chunkCounts.sum
    ∧ List.Forall₂ (fun k2 (c : List Nat) => k2 = c.length ∨ k2 = 0)
        (SupabaseClient.batch_upsert wRespMixed "u" "k" [10, 20, 30] 2).chunkCounts
        (SupabaseClient.chunksOf 2 [10, 20, 30]) :=
  C6_chunking wRespMixed "u" "k" [10, 20, 30] 2 (by decide) (by decide) (by decide)

/-- C7: during `fetch_all_features`, a page response whose body carries a
source-reported error object aborts the entire fetch with a fatal error: the
result is the ArcGIS error, no record is returned, the erroring page unit
issued exactly one HTTP request (no retry at the error-object level) and no
further page is requested. -/
theorem C7_error_aborts (cEnv : Nat → SitgArcgis.HttpResp SitgArcgis.CountBody)
    (pEnv : Nat → Nat → SitgArcgis.HttpResp SitgArcgis.PageBody)
    (geom : Bool) (F0 FX : List SitgArcgis.Feature)
    (ec : Option Int) (em : Option String)
    (hc : cEnv 0 = .status 200 ⟨some 4500⟩)
    (h0 : pEnv 0 0 = .status 200 ⟨none, F0⟩) (n0 : F0 ≠ [])
    (h1 : pEnv 2000 0 = .status 200 ⟨some ⟨ec, em⟩, FX⟩) :
    SitgArcgis.fetch_all_features cEnv pEnv geom 2000
      = ⟨.error (.arcgisError ec em), 1, [(0, 1), (2000, 1)]⟩ := by
  have hec : SitgArcgis.get_json cEnv = ⟨some ⟨some 4500⟩, 1, []⟩ :=
    get_json_first_ok cEnv 200 _ hc (by omega)
  have e0 : SitgArcgis.get_json (pEnv 0) = ⟨some ⟨none, F0⟩, 1, []⟩ :=
    get_json_first_ok _ 200 _ h0 (by omega)
  have e1 : SitgArcgis.get_json (pEnv 2000) = ⟨some ⟨some ⟨ec, em⟩, FX⟩, 1, []⟩ :=
    get_json_first_ok _ 200 _ h1 (by omega)
  have hrange : SitgArcgis.pyRange 2000 0 4500 = [0, 2000, 4000] := rfl
  simp [SitgArcgis.fetch_all_features, SitgArcgis.get_record_count, hec, hrange,
    SitgArcgis.fetchPages, e0, e1, n0]

/-- C7 witness: the abort statement at a concrete responder whose page at
offset 2000 carries an error object. -/
theorem C7_witness :
    SitgArcgis.fetch_all_features envCount4500 envPagesErrAt2000 true 2000
      = ⟨.error (.arcgisError (some 400) (some "Invalid query")),
         1, [(0, 1), (2000, 1)]⟩ :=
  C7_error_aborts envCount4500 envPagesErrAt2000 true [featA] []
    (some 400) (some "Invalid query") rfl rfl (by decide) rfl

/-- C8: repeating the same upsert against the same destination is idempotent:
with the destination state modelled as the spec's merge-on-conflict map from
conflict-key value to row, applying the same record list twice yields the
same state as applying it once (no duplicate rows — the state is keyed); and
with the destination modelled as the same deterministic responder in both
runs, two identical `batch_upsert` calls report equal totals. -/
theorem C8_idempotence {α β : Type} (s : String → Option α)
    (l : List (String × α)) (resp : Nat → Nat → SupabaseClient.UpResp)
    (url key : String) (records : List β) (bs : Nat) :
    SupabaseClient.applyUpsertRecords (SupabaseClient.applyUpsertRecords s l) l
      = SupabaseClient.applyUpsertRecords s l
    ∧ (SupabaseClient.batch_upsert resp url key records bs).total
        = (SupabaseClient.batch_upsert resp url key records bs).total :=
  ⟨applyUpsertRecords_idem s l, rfl⟩

/-- C9: `fetch_all_features` silently skips a feature whose attributes object
is missing or empty: such a feature yields no record even when it carries
geometry and `include_geometry` is true, so a page containing it contributes
strictly fewer records than it has features (and never more). -/
theorem C9_skips_featureless (include_geometry : Bool) (f : SitgArcgis.Feature)
    (feats : List SitgArcgis.Feature)
    (hf : f.attributes = none ∨ f.attributes = some []) :
    SitgArcgis.featureToRecord include_geometry f = none
    ∧ (SitgArcgis.recordsOfFeatures include_geometry feats).length ≤ feats.length
    ∧ (f ∈ feats →
        (SitgArcgis.recordsOfFeatures include_geometry feats).length < feats.length) := by
  have hnone : SitgArcgis.featureToRecord include_geometry f = none := by
    rcases hf with h | h <;> simp [SitgArcgis.featureToRecord, h]
  exact ⟨hnone, List.length_filterMap_le _ _,
    fun hm => length_filterMap_lt _ f feats hm hnone⟩

/-- C9 witness: the skipping statement at a geometry-carrying feature with no
attributes, in a two-feature page. -/
theorem C9_witness :
    SitgArcgis.featureToRecord true featNoAttrs = none
    ∧ (SitgArcgis.recordsOfFeatures true [featNoAttrs, featA]).length ≤ 2
    ∧ (featNoAttrs ∈ [featNoAttrs, featA] →
        (SitgArcgis.recordsOfFeatures true [featNoAttrs, featA]).length < 2) :=
  C9_skips_featureless true featNoAttrs [featNoAttrs, featA] (Or.inl rfl)

/-- C10: the total reported by `batch_upsert` is between 0 and the number of
submitted records (0 is implicit in the `Nat` return type); and when the url
is empty, the key is empty, or the record list is empty, it returns 0 without
issuing any destination request. -/
theorem C10_count_bounds {α : Type} (resp : Nat → Nat → SupabaseClient.UpResp)
    (url key : String) (records : List α) (bs : Nat) (hbs : 1 ≤ bs) :
    (SupabaseClient.batch_upsert resp url key records bs).total ≤ records.length
    ∧ ((url = "" ∨ key = "" ∨ records = []) →
        (SupabaseClient.batch_upsert resp url key records bs).total = 0
        ∧ (SupabaseClient.batch_upsert resp url key records bs).requests = 0) := by
  constructor
  · by_cases hcond : url = "" ∨ key = ""
    · simp [SupabaseClient.batch_upsert, hcond]
    · by_cases hrec : records.isEmpty
      · simp [SupabaseClient.batch_upsert, hcond, hrec]
      · have hbu : SupabaseClient.batch_upsert resp url key records bs
            = SupabaseClient.runChunks resp 0 (SupabaseClient.chunksOf bs records) := by
          simp [SupabaseClient.batch_upsert, hcond, hrec]
        rw [hbu]
        calc (SupabaseClient.runChunks resp 0 (SupabaseClient.chunksOf bs records)).total
            ≤ ((SupabaseClient.chunksOf bs records).map List.length).sum :=
              runChunks_total_le resp _ 0
          _ = (SupabaseClient.chunksOf bs records).flatten.length :=
              (List.length_flatten _).symm
          _ = records.length := by rw [chunksOf_join bs hbs records]
  · intro h
    rcases h with h | h | h
    · simp [SupabaseClient.batch_upsert, h]
    · simp [SupabaseClient.batch_upsert, h]
    · subst h
      by_cases hcond : url = "" ∨ key = ""
      · simp [SupabaseClient.batch_upsert, hcond]
      · simp [SupabaseClient.batch_upsert, hcond]

/-- C10 witness: the bound and the empty-url short-circuit at concrete calls
with batch size 200 (the batch size the simap pipeline passes). -/
theorem C10_witness :
    (SupabaseClient.batch_upsert (fun _ _ => SupabaseClient.UpResp.status 200)
        "u" "k" [10, 20, 30] 200).total ≤ 3
    ∧ (SupabaseClient.batch_upsert (fun _ _ => SupabaseClient.UpResp.status 200)
        "" "k" [10, 20, 30] 200).total = 0
    ∧ (SupabaseClient.batch_upsert (fun _ _ => SupabaseClient.UpResp.status 200)
        "" "k" [10, 20, 30] 200).requests = 0 :=
  ⟨(C10_count_bounds (fun _ _ => SupabaseClient.UpResp.status 200)
      "u" "k" [10, 20, 30] 200 (by decide)).1,
   ((C10_count_bounds (fun _ _ => SupabaseClient.UpResp.status 200)
      "" "k" [10, 20, 30] 200 (by decide)).2 (Or.inl rfl)).1,
   ((C10_count_bounds (fun _ _ => SupabaseClient.UpResp.status 200)
      "" "k" [10, 20, 30] 200 (by decide)).2 (Or.inl rfl)).2⟩
